import Mathlib

/-!
Verification development for the histogram aggregation and ratio/significance
engine of the `atlas_mpl_style` package (`plot.py` and `utils.py`).

Machine floating-point values are modelled by real numbers, extended with the
IEEE special values through the type `Fp` (finite / signed infinity / NaN),
so that division by zero, logarithms of non-positive numbers and square roots
of negative numbers propagate exactly as the numpy/numexpr code does (the
code runs with floating-point errors ignored, so these operations return
sentinel values rather than raising).  Rounding is idealised: finite
arithmetic is exact real arithmetic.

Rendering calls (matplotlib axes, bands, markers, legends) are side effects
with no influence on the numeric results and are not modelled; the functions
below return the numeric arrays the Python code computes, together with the
error behaviour (`Except`) and, for `plot_ratio`, the ambient numpy
floating-point error state threaded explicitly.
-/

namespace AMPL

noncomputable section

/-- Model of an IEEE double: a finite real, a signed infinity
(`inf true` is `+∞`, `inf false` is `-∞`), or NaN. -/
inductive Fp where
  | fin : ℝ → Fp
  | inf : Bool → Fp
  | nan : Fp

/-- Negation of a modelled float. -/
def fneg : Fp → Fp
  | .fin a => .fin (-a)
  | .inf s => .inf (!s)
  | .nan => .nan

/-- Addition of modelled floats: NaN propagates, `∞ + (-∞)` is NaN. -/
def fadd : Fp → Fp → Fp
  | .nan, _ => .nan
  | _, .nan => .nan
  | .fin a, .fin b => .fin (a + b)
  | .fin _, .inf s => .inf s
  | .inf s, .fin _ => .inf s
  | .inf s, .inf t => if s = t then .inf s else .nan

/-- Subtraction of modelled floats. -/
def fsub (x y : Fp) : Fp := fadd x (fneg y)

/-- Multiplication of modelled floats: NaN propagates, `0 * ∞` is NaN,
signs of infinities combine. -/
def fmul : Fp → Fp → Fp
  | .nan, _ => .nan
  | _, .nan => .nan
  | .fin a, .fin b => .fin (a * b)
  | .fin a, .inf s => if a = 0 then .nan else .inf ((0 < a : Bool) == s)
  | .inf s, .fin a => if a = 0 then .nan else .inf ((0 < a : Bool) == s)
  | .inf s, .inf t => .inf (s == t)

/-- Division of modelled floats: NaN propagates, `x / 0` is a signed
infinity for `x ≠ 0` and NaN for `x = 0` (the real zero models IEEE `+0`),
`finite / ∞` is zero, `∞ / ∞` is NaN. -/
def fdiv : Fp → Fp → Fp
  | .nan, _ => .nan
  | _, .nan => .nan
  | .fin a, .fin b =>
      if b = 0 then (if a = 0 then .nan else .inf (0 < a : Bool)) else .fin (a / b)
  | .fin _, .inf _ => .fin 0
  | .inf s, .fin b => .inf (s == (0 ≤ b : Bool))
  | .inf _, .inf _ => .nan

/-- Square root of a modelled float: NaN on negative inputs, as numpy's
`sqrt` with errors ignored. -/
def fsqrt : Fp → Fp
  | .nan => .nan
  | .inf s => if s then .inf true else .nan
  | .fin a => if a < 0 then .nan else .fin (Real.sqrt a)

/-- Natural logarithm of a modelled float: NaN on negative inputs, `-∞`
at zero, as numpy's `log` with errors ignored. -/
def flog : Fp → Fp
  | .nan => .nan
  | .inf s => if s then .inf true else .nan
  | .fin a => if a < 0 then .nan else if a = 0 then .inf false else .fin (Real.log a)

/-- Division of two real (finite) values, producing a modelled float. -/
def rdiv (a b : ℝ) : Fp := fdiv (.fin a) (.fin b)

/-- Square root of a real (finite) value, producing a modelled float. -/
def rsqrt (a : ℝ) : Fp := fsqrt (.fin a)

/-- Comparison `x > m` of a modelled float against a real bound; false on
NaN, as in numpy. -/
def fgtR : Fp → ℝ → Bool
  | .fin x, m => (m < x : Bool)
  | .inf s, _ => s
  | .nan, _ => false

/-- Comparison `x < m` of a modelled float against a real bound; false on
NaN, as in numpy. -/
def fltR : Fp → ℝ → Bool
  | .fin x, m => (x < m : Bool)
  | .inf s, _ => !s
  | .nan, _ => false

/-- Errors raised by the plotting engine (`plot.py`): binning mismatches,
the ad hoc `TypeError`s, and Python `IndexError` from indexing an empty
sequence. -/
inductive PlotError where
  | binningMismatch : String → PlotError
  | typeError : String → PlotError
  | attributeError : PlotError
  | indexError : PlotError
deriving DecidableEq

/-- One stacked background contribution (`Background` in `plot.py`): bin
contents (`hist`), statistical and systematic error arrays, and the bin
edges recorded when the object was built from a `PlottableHistogram`
(otherwise `none`).  The display colour plays no numeric role and is
omitted. -/
structure Background where
  label : String
  hist : List ℝ
  stat_errs : List ℝ
  syst_errs : List ℝ
  bins : Option (List ℝ)

/-- A positional argument of `plot_backgrounds`, which accepts its first
two arguments in either order: a list of `Background`s or an array of bin
edges. -/
inductive PBArg where
  | bkgList : List Background → PBArg
  | arr : List ℝ → PBArg

/-- Python's `len` on either kind of argument. -/
def PBArg.size : PBArg → ℕ
  | .bkgList bs => bs.length
  | .arr xs => xs.length

/-- Elementwise sum of two numpy arrays (used only where the code has
already established equal lengths). -/
def addV (a b : List ℝ) : List ℝ := List.zipWith (fun x y => x + y) a b

/-- Elementwise difference of two numpy arrays. -/
def subV (a b : List ℝ) : List ℝ := List.zipWith (fun x y => x - y) a b

/-- Elementwise square (`np.square`). -/
def sqV (xs : List ℝ) : List ℝ := xs.map (fun x => x ^ 2)

/-- The accumulation loop of `plot_backgrounds` (plot.py lines 245-251):
running variance of statistical errors, running variance of systematic
errors (skipped when a `total_err` override was supplied, i.e. when
`accSyst` is false), and running total histogram.  A background whose
`hist` length differs from the first background's (`n`) raises
`BinningMismatchError(f"Invalid binning for background {i}")`. -/
def accumLoop (n : ℕ) (accSyst : Bool) :
    ℕ → List ℝ → List ℝ → List ℝ → List Background →
    Except PlotError (List ℝ × List ℝ × List ℝ)
  | _, stat, syst, hist, [] => .ok (stat, syst, hist)
  | i, stat, syst, hist, b :: rest =>
      if b.hist.length ≠ n then
        .error (.binningMismatch ("Invalid binning for background " ++ toString i))
      else
        accumLoop n accSyst (i + 1) (addV stat (sqV b.stat_errs))
          (if accSyst then addV syst (sqV b.syst_errs) else syst)
          (addV hist b.hist) rest

/-- The numeric outputs of `plot_backgrounds`: the Python function returns
the pair `(total_hist, total_err)` and additionally derives
`total_stat_err` and `total_syst_err` internally to draw the uncertainty
bands; all four arrays are collected here.  Final square roots go through
`rsqrt`, so a negative radicand yields NaN exactly as `np.sqrt` does. -/
structure AggResult where
  total_hist : List ℝ
  total_stat_err : List Fp
  total_syst_err : List Fp
  total_err : List Fp

/-- Finalisation of `plot_backgrounds` (plot.py lines 241-258): run the
accumulation loop, then take square roots of the accumulated variances.
With no override, `total_err = sqrt(stat_var + syst_var)` and
`total_syst_err = sqrt(syst_var)`; with an override `te`, `total_err` is
`te` itself and `total_syst_err = sqrt(te - stat_var)` (the code subtracts
the statistical *variance* from the *unsquared* override).  If the bin
edges argument was itself a list of `Background`s (possible through the
argument-swapping convention) the later `bin_centers` arithmetic raises a
`TypeError`. -/
def plot_backgrounds_finish (bs : List Background) (n : ℕ) (binsv : PBArg)
    (total_err : Option (List ℝ)) : Except PlotError (Option AggResult) :=
  match accumLoop n total_err.isNone 0 (List.replicate n 0) (List.replicate n 0)
      (List.replicate n 0) bs with
  | .error e => .error e
  | .ok (statv, systv, histv) =>
    match binsv with
    | .bkgList _ => .error (.typeError "unsupported operand type(s)")
    | .arr _ =>
      match total_err with
      | none =>
          .ok (some ⟨histv, statv.map rsqrt, systv.map rsqrt,
                     (addV statv systv).map rsqrt⟩)
      | some te =>
          .ok (some ⟨histv, statv.map rsqrt, (subV te statv).map rsqrt,
                     te.map Fp.fin⟩)

/-- Body of `plot_backgrounds` after argument swapping, for a list of
`Background`s (plot.py lines 226-258): an empty list returns `None`
without raising; otherwise the bin edges are taken from the argument or
from the first background, the first background and the `total_err`
override are checked against the binning, and the accumulation runs. -/
def plot_backgrounds_run (bs : List Background) (binsArg : Option PBArg)
    (total_err : Option (List ℝ)) : Except PlotError (Option AggResult) :=
  match bs with
  | [] => .ok none
  | b0 :: _ =>
    match (match binsArg with
           | some bv => Except.ok bv
           | none =>
             match b0.bins with
             | some es => Except.ok (PBArg.arr es)
             | none => Except.error (PlotError.typeError
                 "bins is required if backgrounds were not constructed from PlottableHists")) with
    | .error e => .error e
    | .ok binsv =>
      if (b0.hist.length : ℤ) ≠ (binsv.size : ℤ) - 1 then
        .error (.binningMismatch "Invalid binning supplied")
      else
        match total_err with
        | some te =>
          if (te.length : ℤ) ≠ (binsv.size : ℤ) - 1 then
            .error (.binningMismatch "Total error may have incorrect binning")
          else plot_backgrounds_finish bs b0.hist.length binsv total_err
        | none => plot_backgrounds_finish bs b0.hist.length binsv total_err

/-- The argument-swapping probe of `plot_backgrounds` (plot.py line 221):
`isinstance(bins[0], Background)`.  Indexing an empty sequence raises
`IndexError`. -/
def firstIsBackground : PBArg → Except PlotError Bool
  | .bkgList [] => .error .indexError
  | .arr [] => .error .indexError
  | .bkgList (_ :: _) => .ok true
  | .arr (_ :: _) => .ok false

/-- Interpretation of the (possibly swapped) first argument: a list of
`Background`s runs the engine; a numeric array of length `< 1` hits the
early `return`, while a non-empty numeric array in background position
fails with `AttributeError` when the code accesses `.bins` or `.hist` on
a float. -/
def pbInterp (backgrounds : PBArg) (binsArg : Option PBArg)
    (total_err : Option (List ℝ)) : Except PlotError (Option AggResult) :=
  match backgrounds with
  | .bkgList bs => plot_backgrounds_run bs binsArg total_err
  | .arr [] => .ok none
  | .arr (_ :: _) => .error .attributeError

/-- Full `plot_backgrounds` entry point: if `bins` is given and its first
element is a `Background`, the two positional arguments are exchanged
before the engine runs. -/
def plot_backgrounds (backgrounds : PBArg) (bins : Option PBArg)
    (total_err : Option (List ℝ)) : Except PlotError (Option AggResult) :=
  match bins with
  | none => pbInterp backgrounds none total_err
  | some bv =>
    match firstIsBackground bv with
    | .error e => .error e
    | .ok true => pbInterp bv (some backgrounds) total_err
    | .ok false => pbInterp backgrounds (some bv) total_err

/-- Per-bin significance (`utils.py` lines 24-35), translated term by term
from the numexpr expression: with observed count `n`, background `b` and
combined variance `s2`,
`where(n >= b, 1, -1) * sqrt(2 * (n * log(n*(b+s2)/(b**2+n*s2)) - (b**2/s2) * log(1 + (s2*(n-b))/(b*(b+s2)))))`. -/
def sigBin (n b s2 : ℝ) : Fp :=
  fmul (if n ≥ b then Fp.fin 1 else Fp.fin (-1))
    (fsqrt (fmul (Fp.fin 2)
      (fsub
        (fmul (Fp.fin n)
          (flog (fdiv (Fp.fin (n * (b + s2))) (Fp.fin (b ^ 2 + n * s2)))))
        (fmul (fdiv (Fp.fin (b ^ 2)) (Fp.fin s2))
          (flog (fadd (Fp.fin 1)
            (fdiv (Fp.fin (s2 * (n - b))) (Fp.fin (b * (b + s2))))))))))

/-- Four-way elementwise zip, the shape of a numexpr evaluation over four
equal-length arrays. -/
def zipWith4 (f : α → β → γ → δ → ε) :
    List α → List β → List γ → List δ → List ε
  | a :: as, b :: bs, c :: cs, d :: ds => f a b c d :: zipWith4 f as bs cs ds
  | _, _, _, _ => []

/-- The `significance` function of `utils.py`: per bin, the combined
variance is `data_errs**2 + bkg_errs**2` and the significance is
`sigBin`. -/
def significance (data data_errs bkg bkg_errs : List ℝ) : List Fp :=
  zipWith4 (fun n dn b be => sigBin n b (dn ^ 2 + be ^ 2)) data data_errs bkg bkg_errs

/-- Modelled from the spec sentence defining the significance formula
("Z = sign * sqrt(2 * (n * ln(n*(b+s2)/(b² + n*s2)) - (b²/s2) * ln(1 + s2*(n-b)/(b*(b+s2)))))"
with sign +1 if n ≥ b and -1 otherwise), stated independently of the
source translation `sigBin` for comparison. -/
def sigSpecBin (n b s2 : ℝ) : Fp :=
  fmul (if n ≥ b then Fp.fin 1 else Fp.fin (-1))
    (fsqrt (fmul (Fp.fin 2)
      (fsub
        (fmul (Fp.fin n)
          (flog (fdiv (Fp.fin (n * (b + s2))) (Fp.fin (b ^ 2 + n * s2)))))
        (fmul (fdiv (Fp.fin (b ^ 2)) (Fp.fin s2))
          (flog (fadd (Fp.fin 1)
            (fdiv (Fp.fin (s2 * (n - b))) (Fp.fin (b * (b + s2))))))))))

/-- Numeric results of `plot_ratio`: the computed per-bin ratio before
off-scale masking (`ratio0`), the auxiliary off-scale marker arrays
(`out_of_range_up`/`down`, holding the clamped bound at off-scale bins and
NaN elsewhere), the ratio array actually drawn (`ratio`, equal to `ratio0`
when `offscale_errs` is true and NaN-masked otherwise), and the inflated
axis bounds. -/
structure RatioOut where
  ratio0 : List Fp
  out_of_range_up : List Fp
  out_of_range_down : List Fp
  ratio : List Fp
  max_ratio : ℝ
  min_ratio : ℝ

/-- The `plot_ratio` function (plot.py lines 481-591).  The ambient numpy
floating-point error state is threaded explicitly: the function saves it
(`olderr = np.seterr(all="ignore")`), computes, and restores it on normal
return only — the `raise TypeError("Invalid plottype")` path leaves the
state at "ignore".  The `bins` edges are used only for drawing and do not
influence the numeric outputs. -/
def plot_ratio (errstate : String) (bins data data_errs bkg bkg_errs : List ℝ)
    (max_ratio : Option ℝ) (plottype : String) (offscale_errs : Bool) :
    Except PlotError RatioOut × String :=
  let olderr := errstate
  let computed : Except PlotError (List Fp × ℝ × ℝ) :=
    if plottype = "diff" then
      let mr := max_ratio.getD 0.25
      .ok (List.zipWith (fun d b => rdiv (d - b) b) data bkg, mr, -mr)
    else if plottype = "raw" then
      let mr := max_ratio.getD 1.25
      .ok (List.zipWith (fun d b => rdiv d b) data bkg, mr, 1 - mr)
    else if plottype = "significances" then
      let mr := max_ratio.getD 3.5
      .ok (significance data data_errs bkg bkg_errs, mr, -mr)
    else .error (.typeError "Invalid plottype")
  match computed with
  | .error e => (.error e, "ignore")
  | .ok (ratio, mr, mnr) =>
    let maxr := mr * 1.1
    let minr := mnr * 1.1
    let up := ratio.map (fun x => if fgtR x maxr then Fp.fin maxr else Fp.nan)
    let down := ratio.map (fun x => if fltR x minr then Fp.fin minr else Fp.nan)
    let drawn :=
      if offscale_errs then ratio
      else ratio.map (fun x => if fgtR x maxr || fltR x minr then Fp.nan else x)
    (.ok ⟨ratio, up, down, drawn, maxr, minr⟩, olderr)

/-- Concrete background used to evaluate the `total_err` override path:
one bin with content 1, statistical error 1, no systematics. -/
def c1bkg : Background := ⟨"b", [1], [1], [0], none⟩

/-- Concrete background with three bins, used with four-bin edges to
exercise the binning-mismatch path. -/
def c7bkg : Background := ⟨"x", [1, 2, 3], [0, 0, 0], [0, 0, 0], none⟩

/-- Concrete one-bin background used in witnesses. -/
def bkgOne : Background := ⟨"one", [3], [1], [2], none⟩

/-- Concrete two-bin background used in witnesses. -/
def bkgTwoBins : Background := ⟨"two", [1, 2], [0, 0], [0, 0], none⟩

/-- First background of the spec's worked example: contents `[10, 20]`,
Poisson statistical errors, no systematics. -/
def exA : Background := ⟨"a", [10, 20], [Real.sqrt 10, Real.sqrt 20], [0, 0], none⟩

/-- Second background of the spec's worked example. -/
def exB : Background := ⟨"bb", [5, 5], [Real.sqrt 5, Real.sqrt 5], [0, 0], none⟩

/-- Third background of the spec's worked example. -/
def exC : Background := ⟨"c", [0, 10], [Real.sqrt 0, Real.sqrt 10], [0, 0], none⟩

/-- Concrete two-bin background used in the permutation witness. -/
def pA : Background := ⟨"pa", [1, 2], [1, 0], [0, 1], none⟩

/-- Concrete two-bin background used in the permutation witness. -/
def pB : Background := ⟨"pb", [3, 4], [2, 1], [1, 0], none⟩

end

/-- Claim C9: calling `plot_backgrounds` with an empty list of backgrounds (and a
bins argument that is either absent or a non-empty edge array, so the
argument-swapping probe does not fire) returns early with no result
(`None`, modelled as `.ok none`) and does not raise. -/
theorem plot_backgrounds_empty_list (bins : Option PBArg) (ov : Option (List ℝ))
    (h : bins = none ∨ ∃ x xs, bins = some (PBArg.arr (x :: xs))) :
    plot_backgrounds (PBArg.bkgList []) bins ov = .ok none := by
  rcases h with h | ⟨x, xs, h⟩ <;> subst h <;> rfl

/-- Witness for C9 at a concrete input: empty background list with edges
`[0, 1]`. -/
theorem plot_backgrounds_empty_list_witness :
    plot_backgrounds (PBArg.bkgList []) (some (PBArg.arr [0, 1])) none = .ok none :=
  plot_backgrounds_empty_list (some (PBArg.arr [0, 1])) none (Or.inr ⟨0, [1], rfl⟩)

/-- Claim C10 counterexample: with an empty background list the two argument
orders do not compute identical results — `plot_backgrounds(edges, [])`
raises `IndexError` probing `bins[0]`, while `plot_backgrounds([], edges)`
returns `None`. -/
theorem plot_backgrounds_swap_counterexample :
    plot_backgrounds (PBArg.arr [0, 1]) (some (PBArg.bkgList [])) none ≠
      plot_backgrounds (PBArg.bkgList []) (some (PBArg.arr [0, 1])) none := by
  have h1 : plot_backgrounds (PBArg.arr [0, 1]) (some (PBArg.bkgList [])) none =
      Except.error PlotError.indexError := rfl
  have h2 : plot_backgrounds (PBArg.bkgList []) (some (PBArg.arr [0, 1])) none =
      Except.ok none := rfl
  rw [h1, h2]
  exact fun h => Except.noConfusion h

/-- Claim C10 amended: for every NON-EMPTY list of backgrounds and non-empty
edge array, `plot_backgrounds(bkgs, edges)` and
`plot_backgrounds(edges, bkgs)` compute identical results, because the
first element of the `bins` argument being a `Background` triggers the
swap; with an empty background list the swapped call instead raises
`IndexError`. -/
theorem plot_backgrounds_swap_equiv (bkgs : List Background) (edges : List ℝ)
    (ov : Option (List ℝ)) (h1 : bkgs ≠ []) (h2 : edges ≠ []) :
    plot_backgrounds (PBArg.arr edges) (some (PBArg.bkgList bkgs)) ov =
      plot_backgrounds (PBArg.bkgList bkgs) (some (PBArg.arr edges)) ov := by
  match bkgs, h1 with
  | b :: bs, _ =>
    match edges, h2 with
    | e :: es, _ => rfl

/-- Witness for C10's amended theorem at a concrete non-empty input. -/
theorem plot_backgrounds_swap_equiv_witness :
    plot_backgrounds (PBArg.arr [0, 1]) (some (PBArg.bkgList [bkgOne])) none =
      plot_backgrounds (PBArg.bkgList [bkgOne]) (some (PBArg.arr [0, 1])) none :=
  plot_backgrounds_swap_equiv [bkgOne] [0, 1] none (by simp) (by simp)

/-- Claim C4 counterexample: the floating-point error state is NOT restored on
the exception path — calling `plot_ratio` with an unrecognized plottype
from ambient state "warn" raises `TypeError` and leaves the ambient state
at "ignore". -/
theorem plot_ratio_errstate_counterexample :
    (plot_ratio "warn" [] [] [] [] [] none "bogus" false).2 = "ignore" ∧
      "ignore" ≠ "warn" := by
  exact ⟨rfl, by decide⟩

/-- Claim C4 amended: `plot_ratio` saves the ambient floating-point error state
and restores it on normal return (any of the three recognized plottypes),
but on the `TypeError` path for an unrecognized plottype — raised after
`np.seterr(all="ignore")`, with no try/finally — the ambient state is left
at "ignore" rather than restored. -/
theorem plot_ratio_errstate (st : String) (bins data de bkg be : List ℝ)
    (mr : Option ℝ) (pt : String) (off : Bool) :
    (plot_ratio st bins data de bkg be mr pt off).2 =
      if pt = "diff" ∨ pt = "raw" ∨ pt = "significances" then st else "ignore" := by
  by_cases h1 : pt = "diff" <;> by_cases h2 : pt = "raw" <;>
    by_cases h3 : pt = "significances" <;>
    simp [plot_ratio, h1, h2, h3]

/-- Claim C1: evaluation of the code at the failing input.  With one background
(content 1, statistical error 1, no systematics) and total error override
`[2]`, the code reports a total systematic uncertainty of
`sqrt(2 - 1²) = 1` — it subtracts the statistical variance from the
UNSQUARED override — whereas the claimed formula
`sqrt(override² - stat²) = sqrt(3)` differs from 1. -/
theorem plot_backgrounds_override_eval :
    plot_backgrounds_run [c1bkg] (some (PBArg.arr [0, 1])) (some [2]) =
      .ok (some ⟨[1], [Fp.fin 1], [Fp.fin 1], [Fp.fin 2]⟩) ∧
    Real.sqrt (2 ^ 2 - 1 ^ 2) ≠ 1 := by
  constructor
  · norm_num [plot_backgrounds_run, plot_backgrounds_finish, accumLoop, c1bkg,
      addV, subV, sqV, rsqrt, fsqrt, PBArg.size, Real.sqrt_one]
  · have h : (2 : ℝ) ^ 2 - 1 ^ 2 = 3 := by norm_num
    rw [h]
    intro hc
    have h3 : Real.sqrt 3 ^ 2 = 3 := Real.sq_sqrt (by norm_num)
    rw [hc] at h3
    norm_num at h3

/-- Helper: the accumulation loop fails with some `BinningMismatchError`
whenever the list contains a background of the wrong length. -/
theorem accumLoop_error_of_bad (n : ℕ) (acc : Bool) :
    ∀ (bs : List Background) (i : ℕ) (stat syst hist : List ℝ),
      (∃ b ∈ bs, b.hist.length ≠ n) →
      ∃ m, accumLoop n acc i stat syst hist bs = .error (.binningMismatch m) := by
  intro bs
  induction bs with
  | nil => intro i stat syst hist h; simp at h
  | cons b rest ih =>
    intro i stat syst hist h
    by_cases hb : b.hist.length = n
    · have hr : ∃ c ∈ rest, c.hist.length ≠ n := by
        rcases h with ⟨c, hc, hcn⟩
        rcases List.mem_cons.mp hc with h1 | h1
        · subst h1; exact absurd hb hcn
        · exact ⟨c, h1, hcn⟩
      obtain ⟨m, hm⟩ := ih (i + 1) (addV stat (sqV b.stat_errs))
        (if acc then addV syst (sqV b.syst_errs) else syst) (addV hist b.hist) hr
      exact ⟨m, by simp [accumLoop, hb, hm]⟩
    · exact ⟨"Invalid binning for background " ++ toString i,
        by simp [accumLoop, hb]⟩

/-- Helper: when all backgrounds before position `pre.length` have the
right length and the one at that position does not, the accumulation loop
reports exactly that index. -/
theorem accumLoop_indexed (n : ℕ) (acc : Bool) :
    ∀ (pre : List Background) (b : Background) (post : List Background) (i : ℕ)
      (stat syst hist : List ℝ),
      (∀ a ∈ pre, a.hist.length = n) → b.hist.length ≠ n →
      accumLoop n acc i stat syst hist (pre ++ b :: post) =
        .error (.binningMismatch
          ("Invalid binning for background " ++ toString (i + pre.length))) := by
  intro pre
  induction pre with
  | nil => intro b post i stat syst hist _ hb; simp [accumLoop, hb]
  | cons a rest ih =>
    intro b post i stat syst hist hpre hb
    have ha : a.hist.length = n := hpre a (List.mem_cons_self a rest)
    have hrest : ∀ c ∈ rest, c.hist.length = n :=
      fun c hc => hpre c (List.mem_cons_of_mem a hc)
    have harith : i + (a :: rest).length = i + 1 + rest.length := by
      simp only [List.length_cons]
      omega
    rw [harith, List.cons_append]
    rw [show accumLoop n acc i stat syst hist (a :: (rest ++ b :: post)) =
        accumLoop n acc (i + 1) (addV stat (sqV a.stat_errs))
          (if acc then addV syst (sqV a.syst_errs) else syst)
          (addV hist a.hist) (rest ++ b :: post) from by simp [accumLoop, ha]]
    exact ih b post (i + 1) _ _ _ hrest hb

/-- Helper: the accumulation loop succeeds when every background has the
expected length, returning left folds of elementwise accumulation. -/
theorem accumLoop_ok (n : ℕ) (acc : Bool) :
    ∀ (bs : List Background) (i : ℕ) (stat syst hist : List ℝ),
      (∀ b ∈ bs, b.hist.length = n) →
      accumLoop n acc i stat syst hist bs =
        .ok (bs.foldl (fun s b => addV s (sqV b.stat_errs)) stat,
             bs.foldl (fun s b => if acc then addV s (sqV b.syst_errs) else s) syst,
             bs.foldl (fun s b => addV s b.hist) hist) := by
  intro bs
  induction bs with
  | nil => intro i stat syst hist _; simp [accumLoop]
  | cons b rest ih =>
    intro i stat syst hist h
    have hb : b.hist.length = n := h b (List.mem_cons_self b rest)
    have hrest : ∀ c ∈ rest, c.hist.length = n :=
      fun c hc => h c (List.mem_cons_of_mem b hc)
    simp [accumLoop, hb, ih (i + 1) _ _ _ hrest]

/-- Claim C7 counterexample: a single background with 3 bins against bin edges
of length 5 raises `BinningMismatchError("Invalid binning supplied")` —
the error does not identify the offending contribution by index. -/
theorem plot_backgrounds_mismatch_counterexample :
    plot_backgrounds_run [c7bkg] (some (PBArg.arr [0, 1, 2, 3, 4])) none =
      .error (PlotError.binningMismatch "Invalid binning supplied") ∧
    "Invalid binning supplied" ≠ "Invalid binning for background 0" :=
  ⟨rfl, by decide⟩

/-- Claim C7 amended: a binning mismatch always aborts `plot_backgrounds` with a
`BinningMismatchError` and no partial result; a mismatch first occurring
at a background after the first is reported with that background's index
(`"Invalid binning for background i"`), while a mismatch of the FIRST
background — including the 3-bins-versus-4-bins example — is reported with
the unindexed message `"Invalid binning supplied"`. -/
theorem plot_backgrounds_binning_mismatch :
    (∀ (bkgs : List Background) (bins : List ℝ) (ov : Option (List ℝ)),
        bkgs ≠ [] →
        (∃ b ∈ bkgs, (b.hist.length : ℤ) ≠ (bins.length : ℤ) - 1) →
        ∃ m, plot_backgrounds_run bkgs (some (PBArg.arr bins)) ov =
          .error (PlotError.binningMismatch m)) ∧
    (∀ (pre : List Background) (b : Background) (post : List Background)
        (bins : List ℝ) (ov : Option (List ℝ)),
        pre ≠ [] →
        (∀ a ∈ pre, (a.hist.length : ℤ) = (bins.length : ℤ) - 1) →
        (b.hist.length : ℤ) ≠ (bins.length : ℤ) - 1 →
        (∀ te ∈ ov, (te.length : ℤ) = (bins.length : ℤ) - 1) →
        plot_backgrounds_run (pre ++ b :: post) (some (PBArg.arr bins)) ov =
          .error (PlotError.binningMismatch
            ("Invalid binning for background " ++ toString pre.length))) ∧
    plot_backgrounds_run [c7bkg] (some (PBArg.arr [0, 1, 2, 3, 4])) none =
      .error (PlotError.binningMismatch "Invalid binning supplied") := by
  refine ⟨?_, ?_, rfl⟩
  · rintro bkgs bins ov hne ⟨bb, hmem, hbb⟩
    match bkgs, hne with
    | b0 :: rest, _ =>
      by_cases h0 : (b0.hist.length : ℤ) = (bins.length : ℤ) - 1
      · have hbad : ∃ c ∈ (b0 :: rest), c.hist.length ≠ b0.hist.length := by
          refine ⟨bb, hmem, ?_⟩
          omega
        match ov with
        | none =>
          obtain ⟨m, hm⟩ := accumLoop_error_of_bad b0.hist.length true (b0 :: rest) 0
            (List.replicate b0.hist.length 0) (List.replicate b0.hist.length 0)
            (List.replicate b0.hist.length 0) hbad
          exact ⟨m, by simp [plot_backgrounds_run, PBArg.size, h0,
            plot_backgrounds_finish, hm]⟩
        | some te =>
          by_cases hte : (te.length : ℤ) = (bins.length : ℤ) - 1
          · obtain ⟨m, hm⟩ := accumLoop_error_of_bad b0.hist.length false (b0 :: rest) 0
              (List.replicate b0.hist.length 0) (List.replicate b0.hist.length 0)
              (List.replicate b0.hist.length 0) hbad
            exact ⟨m, by simp [plot_backgrounds_run, PBArg.size, h0, hte,
              plot_backgrounds_finish, hm]⟩
          · exact ⟨"Total error may have incorrect binning",
              by simp [plot_backgrounds_run, PBArg.size, h0, hte]⟩
      · exact ⟨"Invalid binning supplied",
          by simp [plot_backgrounds_run, PBArg.size, h0]⟩
  · intro pre b post bins ov hne hpre hb hov
    match pre, hne with
    | p0 :: pre', _ =>
      have h0 : (p0.hist.length : ℤ) = (bins.length : ℤ) - 1 :=
        hpre p0 (List.mem_cons_self p0 pre')
      have hlen : ∀ a ∈ (p0 :: pre'), a.hist.length = p0.hist.length := by
        intro a ha
        have h1 := hpre a ha
        omega
      have hb' : b.hist.length ≠ p0.hist.length := by omega
      have hacc0 : ∀ acc : Bool,
          accumLoop p0.hist.length acc 0 (List.replicate p0.hist.length 0)
            (List.replicate p0.hist.length 0) (List.replicate p0.hist.length 0)
            ((p0 :: pre') ++ b :: post) =
          .error (.binningMismatch
            ("Invalid binning for background " ++ toString (0 + (p0 :: pre').length))) :=
        fun acc => accumLoop_indexed p0.hist.length acc (p0 :: pre') b post 0 _ _ _ hlen hb'
      match ov with
      | none =>
        have hacc := hacc0 true
        rw [List.cons_append] at hacc
        simp only [Nat.zero_add] at hacc
        simp [plot_backgrounds_run, List.cons_append, PBArg.size, h0,
          plot_backgrounds_finish, hacc]
      | some te =>
        have hte : (te.length : ℤ) = (bins.length : ℤ) - 1 := hov te rfl
        have hacc := hacc0 false
        rw [List.cons_append] at hacc
        simp only [Nat.zero_add] at hacc
        simp [plot_backgrounds_run, List.cons_append, PBArg.size, h0, hte,
          plot_backgrounds_finish, hacc]

/-- Witness for C7's amended theorem: a correct one-bin background followed
by a two-bin background, with one-bin edges, fails naming index 1. -/
theorem plot_backgrounds_binning_mismatch_witness :
    plot_backgrounds_run ([bkgOne] ++ bkgTwoBins :: []) (some (PBArg.arr [0, 1])) none =
      .error (PlotError.binningMismatch
        ("Invalid binning for background " ++ toString (List.length [bkgOne]))) :=
  plot_backgrounds_binning_mismatch.2.1 [bkgOne] bkgTwoBins [] [0, 1] none
    (by simp)
    (by intro a ha; simp at ha; subst ha; simp [bkgOne])
    (by simp [bkgTwoBins])
    (by intro te hte; simp at hte)

/-- Helper: length of an elementwise sum. -/
theorem addV_length (a b : List ℝ) : (addV a b).length = min a.length b.length := by
  simp [addV]

/-- Helper: entries of an elementwise sum. -/
theorem addV_getD (a : List ℝ) : ∀ (b : List ℝ) (i : ℕ), i < a.length → i < b.length →
    (addV a b).getD i 0 = a.getD i 0 + b.getD i 0 := by
  induction a with
  | nil => intro b i ha _; simp at ha
  | cons x xs ih =>
    intro b i ha hb
    match b with
    | [] => simp at hb
    | y :: ys =>
      match i with
      | 0 => simp [addV]
      | i + 1 =>
        simp only [addV, List.zipWith_cons_cons, List.getD_cons_succ]
        exact ih ys i (by simpa using ha) (by simpa using hb)

/-- Helper: entries of an elementwise square. -/
theorem sqV_getD : ∀ (l : List ℝ) (i : ℕ), i < l.length →
    (sqV l).getD i 0 = l.getD i 0 ^ 2 := by
  intro l
  induction l with
  | nil => intro i h; simp at h
  | cons x xs ih =>
    intro i h
    match i with
    | 0 => simp [sqV]
    | i + 1 =>
      simp only [sqV, List.map_cons, List.getD_cons_succ]
      exact ih i (by simpa using h)

/-- Helper: entries of a `rsqrt`-mapped list. -/
theorem map_rsqrt_getD : ∀ (l : List ℝ) (i : ℕ), i < l.length →
    (l.map rsqrt).getD i Fp.nan = rsqrt (l.getD i 0) := by
  intro l
  induction l with
  | nil => intro i h; simp at h
  | cons x xs ih =>
    intro i h
    match i with
    | 0 => simp
    | i + 1 =>
      simp only [List.map_cons, List.getD_cons_succ]
      exact ih i (by simpa using h)

/-- Helper: entries of a replicated zero array. -/
theorem replicate_getD (n : ℕ) : ∀ i : ℕ, (List.replicate n (0 : ℝ)).getD i 0 = 0 := by
  induction n with
  | zero => intro i; simp
  | succ n ih =>
    intro i
    match i with
    | 0 => simp [List.replicate]
    | i + 1 => simp only [List.replicate, List.getD_cons_succ]; exact ih i

/-- Helper: `rsqrt` agrees with `Real.sqrt` on non-negative inputs. -/
theorem rsqrt_of_nonneg {x : ℝ} (h : 0 ≤ x) : rsqrt x = Fp.fin (Real.sqrt x) := by
  simp [rsqrt, fsqrt, not_lt.mpr h]

/-- Helper: length of an accumulation fold. -/
theorem foldl_addV_length (n : ℕ) (f : Background → List ℝ) :
    ∀ (bs : List Background) (init : List ℝ), init.length = n →
      (∀ b ∈ bs, (f b).length = n) →
      (bs.foldl (fun s b => addV s (f b)) init).length = n := by
  intro bs
  induction bs with
  | nil => intro init hi _; simpa using hi
  | cons b rest ih =>
    intro init hi h
    simp only [List.foldl_cons]
    exact ih _ (by simp [addV_length, hi, h b (List.mem_cons_self b rest)])
      (fun c hc => h c (List.mem_cons_of_mem b hc))

/-- Helper: entries of an accumulation fold are the entrywise sums. -/
theorem foldl_addV_getD (n : ℕ) (f : Background → List ℝ) :
    ∀ (bs : List Background) (init : List ℝ) (i : ℕ), init.length = n →
      (∀ b ∈ bs, (f b).length = n) → i < n →
      (bs.foldl (fun s b => addV s (f b)) init).getD i 0 =
        init.getD i 0 + (bs.map (fun b => (f b).getD i 0)).sum := by
  intro bs
  induction bs with
  | nil => intro init i hi h hin; simp
  | cons b rest ih =>
    intro init i hi h hin
    have hb := h b (List.mem_cons_self b rest)
    have hrest := fun c hc => h c (List.mem_cons_of_mem b hc)
    simp only [List.foldl_cons, List.map_cons, List.sum_cons]
    rw [ih (addV init (f b)) i (by simp [addV_length, hi, hb]) hrest hin]
    rw [addV_getD init (f b) i (by omega) (by omega)]
    ring

/-- Claim C2: with no `total_err` override, every non-empty list of backgrounds
with matching array lengths yields, per bin, a total histogram equal to
the sum of the backgrounds' contents and a total uncertainty equal to
`sqrt(Σ stat² + Σ syst²)` (statistical and systematic uncertainties each
combined in quadrature); in particular the spec's worked example — three
backgrounds `[10,20]`, `[5,5]`, `[0,10]` with Poisson statistical errors
and no systematics, over three bin edges — totals `[15, 35]` with total
error `[sqrt 15, sqrt 35]`. -/
theorem plot_backgrounds_totals :
    (∀ (bkgs : List Background) (bins : List ℝ) (n : ℕ),
        bkgs ≠ [] →
        (∀ b ∈ bkgs, b.hist.length = n ∧ b.stat_errs.length = n ∧
          b.syst_errs.length = n) →
        (bins.length : ℤ) = (n : ℤ) + 1 →
        ∃ res, plot_backgrounds_run bkgs (some (PBArg.arr bins)) none =
            .ok (some res) ∧
          ∀ i < n,
            res.total_hist.getD i 0 = (bkgs.map (fun b => b.hist.getD i 0)).sum ∧
            res.total_stat_err.getD i Fp.nan =
              Fp.fin (Real.sqrt ((bkgs.map (fun b => b.stat_errs.getD i 0 ^ 2)).sum)) ∧
            res.total_err.getD i Fp.nan =
              Fp.fin (Real.sqrt ((bkgs.map (fun b => b.stat_errs.getD i 0 ^ 2)).sum +
                (bkgs.map (fun b => b.syst_errs.getD i 0 ^ 2)).sum))) ∧
    plot_backgrounds_run [exA, exB, exC] (some (PBArg.arr [0, 1, 2])) none =
      .ok (some ⟨[15, 35], [Fp.fin (Real.sqrt 15), Fp.fin (Real.sqrt 35)],
                 [Fp.fin 0, Fp.fin 0],
                 [Fp.fin (Real.sqrt 15), Fp.fin (Real.sqrt 35)]⟩) := by
  constructor
  · rintro bkgs bins n hne hwf hbins
    match bkgs, hne with
    | b0 :: rest, _ =>
      have hn0 : b0.hist.length = n := (hwf b0 (List.mem_cons_self b0 rest)).1
      have hhist : ∀ b ∈ (b0 :: rest), b.hist.length = n := fun b hb => (hwf b hb).1
      have hstat : ∀ b ∈ (b0 :: rest), b.stat_errs.length = n :=
        fun b hb => (hwf b hb).2.1
      have hsyst : ∀ b ∈ (b0 :: rest), b.syst_errs.length = n :=
        fun b hb => (hwf b hb).2.2
      have hcheck : (b0.hist.length : ℤ) = (bins.length : ℤ) - 1 := by omega
      have hloopok := accumLoop_ok b0.hist.length true (b0 :: rest) 0
        (List.replicate b0.hist.length 0) (List.replicate b0.hist.length 0)
        (List.replicate b0.hist.length 0)
        (fun c hc => (hhist c hc).trans hn0.symm)
      refine ⟨⟨(b0 :: rest).foldl (fun s b => addV s b.hist)
                 (List.replicate b0.hist.length 0),
               ((b0 :: rest).foldl (fun s b => addV s (sqV b.stat_errs))
                 (List.replicate b0.hist.length 0)).map rsqrt,
               ((b0 :: rest).foldl (fun s b => addV s (sqV b.syst_errs))
                 (List.replicate b0.hist.length 0)).map rsqrt,
               (addV ((b0 :: rest).foldl (fun s b => addV s (sqV b.stat_errs))
                       (List.replicate b0.hist.length 0))
                     ((b0 :: rest).foldl (fun s b => addV s (sqV b.syst_errs))
                       (List.replicate b0.hist.length 0))).map rsqrt⟩, ?_, ?_⟩
      · simp [plot_backgrounds_run, PBArg.size, hcheck, plot_backgrounds_finish,
          hloopok]
      · intro i hin
        dsimp only
        have hrepl : (List.replicate b0.hist.length (0 : ℝ)).length = n := by
          simp [hn0]
        have hfstat : ∀ b ∈ (b0 :: rest), (sqV b.stat_errs).length = n := by
          intro b hb; simp [sqV, hstat b hb]
        have hfsyst : ∀ b ∈ (b0 :: rest), (sqV b.syst_errs).length = n := by
          intro b hb; simp [sqV, hsyst b hb]
        have hstatlen := foldl_addV_length n (fun b => sqV b.stat_errs) (b0 :: rest)
          (List.replicate b0.hist.length 0) hrepl hfstat
        have hsystlen := foldl_addV_length n (fun b => sqV b.syst_errs) (b0 :: rest)
          (List.replicate b0.hist.length 0) hrepl hfsyst
        have hstatget := foldl_addV_getD n (fun b => sqV b.stat_errs) (b0 :: rest)
          (List.replicate b0.hist.length 0) i hrepl hfstat hin
        have hsystget := foldl_addV_getD n (fun b => sqV b.syst_errs) (b0 :: rest)
          (List.replicate b0.hist.length 0) i hrepl hfsyst hin
        have hhistget := foldl_addV_getD n (fun b => b.hist) (b0 :: rest)
          (List.replicate b0.hist.length 0) i hrepl hhist hin
        have hstatsum : ((b0 :: rest).map (fun b => (sqV b.stat_errs).getD i 0)).sum =
            ((b0 :: rest).map (fun b => b.stat_errs.getD i 0 ^ 2)).sum := by
          congr 1
          refine List.map_congr_left ?_
          intro b hb
          exact sqV_getD b.stat_errs i (by rw [hstat b hb]; exact hin)
        have hsystsum : ((b0 :: rest).map (fun b => (sqV b.syst_errs).getD i 0)).sum =
            ((b0 :: rest).map (fun b => b.syst_errs.getD i 0 ^ 2)).sum := by
          congr 1
          refine List.map_congr_left ?_
          intro b hb
          exact sqV_getD b.syst_errs i (by rw [hsyst b hb]; exact hin)
        have hsq_nonneg : ∀ g : Background → ℝ,
            (0 : ℝ) ≤ ((b0 :: rest).map (fun b => g b ^ 2)).sum := by
          intro g
          apply List.sum_nonneg
          intro x hx
          obtain ⟨b, _, rfl⟩ := List.mem_map.mp hx
          positivity
        refine ⟨?_, ?_, ?_⟩
        · rw [hhistget, replicate_getD, zero_add]
        · rw [map_rsqrt_getD _ i (by rw [hstatlen]; exact hin), hstatget,
            replicate_getD, zero_add, hstatsum,
            rsqrt_of_nonneg (hsq_nonneg (fun b => b.stat_errs.getD i 0))]
        · rw [map_rsqrt_getD _ i (by rw [addV_length, hstatlen, hsystlen]; simpa),
            addV_getD _ _ i (by rw [hstatlen]; exact hin) (by rw [hsystlen]; exact hin),
            hstatget, hsystget, replicate_getD, zero_add, zero_add, hstatsum, hsystsum,
            rsqrt_of_nonneg (add_nonneg
              (hsq_nonneg (fun b => b.stat_errs.getD i 0))
              (hsq_nonneg (fun b => b.syst_errs.getD i 0)))]
  · norm_num [plot_backgrounds_run, plot_backgrounds_finish, accumLoop, exA, exB,
      exC, addV, sqV, subV, rsqrt, fsqrt, PBArg.size, Real.sq_sqrt, Real.sqrt_zero,
      List.replicate_succ, List.replicate_zero]

/-- Witness for C2's general statement at a concrete input: one background
with content 3, statistical error 1, systematic error 2 over edges
`[0, 1]`. -/
theorem plot_backgrounds_totals_witness :
    ∃ res, plot_backgrounds_run [bkgOne] (some (PBArg.arr [0, 1])) none =
        .ok (some res) ∧
      ∀ i < 1,
        res.total_hist.getD i 0 = ([bkgOne].map (fun b => b.hist.getD i 0)).sum ∧
        res.total_stat_err.getD i Fp.nan =
          Fp.fin (Real.sqrt (([bkgOne].map (fun b => b.stat_errs.getD i 0 ^ 2)).sum)) ∧
        res.total_err.getD i Fp.nan =
          Fp.fin (Real.sqrt (([bkgOne].map (fun b => b.stat_errs.getD i 0 ^ 2)).sum +
            ([bkgOne].map (fun b => b.syst_errs.getD i 0 ^ 2)).sum)) :=
  plot_backgrounds_totals.1 [bkgOne] [0, 1] 1 (by simp)
    (by intro b hb; simp at hb; subst hb; refine ⟨rfl, rfl, rfl⟩) (by norm_num)

/-- Helper: elementwise addition is right-commutative (numpy truncates a
`zipWith` to the shorter operand, so this holds for all lengths). -/
theorem addV_addV_comm : ∀ (s x y : List ℝ), addV (addV s x) y = addV (addV s y) x := by
  intro s
  induction s with
  | nil => intro x y; simp [addV]
  | cons a as ih =>
    intro x y
    match x, y with
    | [], _ => simp [addV]
    | _ :: _, [] => simp [addV]
    | b :: bs, c :: cs =>
      simp only [addV, List.zipWith_cons_cons, List.cons.injEq]
      exact ⟨by ring, ih bs cs⟩

/-- Claim C5: the numeric outputs of `plot_backgrounds` (total contents, total
statistical, total systematic and total combined uncertainties) are
invariant under permutation of the background list, for backgrounds whose
bin contents all share one length. -/
theorem plot_backgrounds_perm (bkgs bkgs2 : List Background) (bins : List ℝ)
    (ov : Option (List ℝ)) (n : ℕ) (hp : List.Perm bkgs bkgs2)
    (hn : ∀ b ∈ bkgs, b.hist.length = n) :
    plot_backgrounds_run bkgs (some (PBArg.arr bins)) ov =
      plot_backgrounds_run bkgs2 (some (PBArg.arr bins)) ov := by
  match bkgs, hp, hn with
  | [], hp, _ =>
    have h2 : bkgs2 = [] := hp.symm.eq_nil
    subst h2
    rfl
  | b0 :: rest, hp, hn =>
    match bkgs2, hp with
    | [], hp => exact absurd hp.eq_nil (by simp)
    | c0 :: rest2, hp =>
      have hn2 : ∀ b ∈ (c0 :: rest2), b.hist.length = n :=
        fun b hb => hn b (hp.mem_iff.mpr hb)
      have hb0 : b0.hist.length = n := hn b0 (List.mem_cons_self b0 rest)
      have hc0 : c0.hist.length = n := hn2 c0 (List.mem_cons_self c0 rest2)
      have hfin : ∀ acc : Bool,
          accumLoop n acc 0 (List.replicate n 0) (List.replicate n 0)
            (List.replicate n 0) (b0 :: rest) =
          accumLoop n acc 0 (List.replicate n 0) (List.replicate n 0)
            (List.replicate n 0) (c0 :: rest2) := by
        intro acc
        haveI i1 : RightCommutative
            (fun (s : List ℝ) (b : Background) => addV s (sqV b.stat_errs)) :=
          ⟨fun s a b => addV_addV_comm s _ _⟩
        haveI i2 : RightCommutative
            (fun (s : List ℝ) (b : Background) =>
              if acc then addV s (sqV b.syst_errs) else s) := by
          cases acc
          · exact ⟨fun s a b => rfl⟩
          · exact ⟨fun s a b => addV_addV_comm s _ _⟩
        haveI i3 : RightCommutative
            (fun (s : List ℝ) (b : Background) => addV s b.hist) :=
          ⟨fun s a b => addV_addV_comm s _ _⟩
        rw [accumLoop_ok n acc (b0 :: rest) 0 _ _ _ hn,
          accumLoop_ok n acc (c0 :: rest2) 0 _ _ _ hn2,
          hp.foldl_eq (List.replicate n 0), hp.foldl_eq (List.replicate n 0),
          hp.foldl_eq (List.replicate n 0)]
      by_cases hcond : (n : ℤ) = (bins.length : ℤ) - 1
      · have hfineq : plot_backgrounds_finish (b0 :: rest) n (PBArg.arr bins) ov =
            plot_backgrounds_finish (c0 :: rest2) n (PBArg.arr bins) ov := by
          unfold plot_backgrounds_finish
          rw [hfin ov.isNone]
        match ov with
        | none =>
          simpa [plot_backgrounds_run, PBArg.size, hb0, hc0, hcond] using hfineq
        | some te =>
          by_cases hte : (te.length : ℤ) = (bins.length : ℤ) - 1
          · simpa [plot_backgrounds_run, PBArg.size, hb0, hc0, hcond, hte] using hfineq
          · simp [plot_backgrounds_run, PBArg.size, hb0, hc0, hcond, hte]
      · simp [plot_backgrounds_run, PBArg.size, hb0, hc0, hcond]

/-- Witness for C5 at a concrete input: swapping two two-bin backgrounds. -/
theorem plot_backgrounds_perm_witness :
    plot_backgrounds_run [pA, pB] (some (PBArg.arr [0, 1, 2])) none =
      plot_backgrounds_run [pB, pA] (some (PBArg.arr [0, 1, 2])) none :=
  plot_backgrounds_perm [pA, pB] [pB, pA] [0, 1, 2] none 2
    (List.Perm.swap pB pA [])
    (by intro b hb; simp at hb; rcases hb with rfl | rfl <;> rfl)

/-- Claim C8: `plot_ratio` of a histogram against itself with zero errors yields,
in "raw" mode, exactly 1 in every bin with nonzero content and NaN in
every zero-content bin, and in "diff" mode exactly 0 in every nonzero bin
(NaN in zero bins); division by a zero background bin never raises — both
calls return normally. -/
theorem plot_ratio_self (st : String) (bins h : List ℝ) :
    (∃ out, (plot_ratio st bins h (List.replicate h.length 0) h
        (List.replicate h.length 0) none "raw" false).1 = .ok out ∧
      out.ratio = h.map (fun x => if x = 0 then Fp.nan else Fp.fin 1)) ∧
    (∃ out, (plot_ratio st bins h (List.replicate h.length 0) h
        (List.replicate h.length 0) none "diff" false).1 = .ok out ∧
      out.ratio = h.map (fun x => if x = 0 then Fp.nan else Fp.fin 0)) := by
  constructor
  · refine ⟨_, rfl, ?_⟩
    show (List.zipWith (fun d b => rdiv d b) h h).map
        (fun x => if fgtR x (1.25 * 1.1) || fltR x ((1 - 1.25) * 1.1)
          then Fp.nan else x) =
      h.map (fun x => if x = 0 then Fp.nan else Fp.fin 1)
    rw [List.zipWith_same, List.map_map]
    refine List.map_congr_left ?_
    intro x _
    by_cases hx : x = 0
    · subst hx
      simp [rdiv, fdiv, fgtR, fltR]
    · have hxx : x / x = 1 := div_self hx
      have h1 : ¬((1.25 : ℝ) * 1.1 < 1) := by norm_num
      have h2 : ¬((1 : ℝ) < (1 - 1.25) * 1.1) := by norm_num
      simp [rdiv, fdiv, hx, hxx, fgtR, fltR, h1, h2]
  · refine ⟨_, rfl, ?_⟩
    show (List.zipWith (fun d b => rdiv (d - b) b) h h).map
        (fun x => if fgtR x (0.25 * 1.1) || fltR x (-0.25 * 1.1)
          then Fp.nan else x) =
      h.map (fun x => if x = 0 then Fp.nan else Fp.fin 0)
    rw [List.zipWith_same, List.map_map]
    refine List.map_congr_left ?_
    intro x _
    by_cases hx : x = 0
    · subst hx
      simp [rdiv, fdiv, fgtR, fltR]
    · have hxx : (0 : ℝ) / x = 0 := zero_div x
      have h1 : ¬((0.25 : ℝ) * 1.1 < 0) := by norm_num
      have h2 : ¬((0 : ℝ) < -0.25 * 1.1) := by norm_num
      simp [rdiv, fdiv, hx, hxx, fgtR, fltR, h1, h2]

/-- Claim C6 counterexample: with the default `offscale_errs = False`, a ratio
value exceeding the maximum (here `30/10 = 3` against an inflated bound of
`1.375`) is destructively overwritten with NaN in the drawn ratio array —
the computed value `Fp.fin 3` is replaced by `Fp.nan` — rather than left
intact with only an auxiliary mask returned. -/
theorem plot_ratio_overflow_counterexample :
    (plot_ratio "warn" [0, 1, 2] [30, 1] [0, 0] [10, 1] [0, 0] none "raw" false).1 =
      Except.ok ⟨[Fp.fin 3, Fp.fin 1], [Fp.fin 1.375, Fp.nan], [Fp.nan, Fp.nan],
                 [Fp.nan, Fp.fin 1], 1.375, -0.275⟩ ∧
    Fp.nan ≠ Fp.fin 3 := by
  constructor
  · have erd : ("raw" = "diff") = False := eq_false (by decide)
    have h30 : (30 : ℝ) / 10 = 3 := by norm_num
    have h11 : (1 : ℝ) / 1 = 1 := by norm_num
    have hmax : (1.25 : ℝ) * 1.1 = 1.375 := by norm_num
    have hmin : ((1 : ℝ) - 1.25) * 1.1 = -0.275 := by norm_num
    have hgt : (1.375 : ℝ) < 3 := by norm_num
    have hngt : ¬((1.375 : ℝ) < 1) := by norm_num
    have hnlt3 : ¬((3 : ℝ) < -0.275) := by norm_num
    have hnlt1 : ¬((1 : ℝ) < -0.275) := by norm_num
    norm_num [plot_ratio, erd, rdiv, fdiv, fgtR, fltR, hmax, hmin, h30, h11, hgt,
      hngt, hnlt3, hnlt1]
  · simp

/-- Claim C6 amended: on every normal return, `plot_ratio` computes auxiliary
arrays `out_of_range_up`/`out_of_range_down` flagging the bins whose ratio
exceeds the (inflated) bounds — holding the bound at an off-scale bin and
NaN elsewhere, drawn as caret markers — and, by default
(`offscale_errs = False`), it overwrites the off-scale entries of the
drawn ratio array with NaN; nothing is returned to the caller (the Python
function returns `None`; these arrays are the drawing inputs). -/
theorem plot_ratio_offscale_flags (st : String) (bins data de bkg be : List ℝ)
    (mr : Option ℝ) (pt : String) (off : Bool) (out : RatioOut)
    (hok : (plot_ratio st bins data de bkg be mr pt off).1 = .ok out) :
    out.out_of_range_up = out.ratio0.map
      (fun x => if fgtR x out.max_ratio then Fp.fin out.max_ratio else Fp.nan) ∧
    out.out_of_range_down = out.ratio0.map
      (fun x => if fltR x out.min_ratio then Fp.fin out.min_ratio else Fp.nan) ∧
    out.ratio = (if off then out.ratio0 else out.ratio0.map
      (fun x => if fgtR x out.max_ratio || fltR x out.min_ratio
        then Fp.nan else x)) := by
  have erd : ("raw" = "diff") = False := eq_false (by decide)
  have esd : ("significances" = "diff") = False := eq_false (by decide)
  have esr : ("significances" = "raw") = False := eq_false (by decide)
  by_cases h1 : pt = "diff"
  · subst h1
    simp only [plot_ratio, eq_self_iff_true, if_true] at hok
    simp only [Except.ok.injEq] at hok
    subst hok
    exact ⟨rfl, rfl, rfl⟩
  · by_cases h2 : pt = "raw"
    · subst h2
      simp only [plot_ratio, erd, eq_self_iff_true, if_true, if_false] at hok
      simp only [Except.ok.injEq] at hok
      subst hok
      exact ⟨rfl, rfl, rfl⟩
    · by_cases h3 : pt = "significances"
      · subst h3
        simp only [plot_ratio, esd, esr, eq_self_iff_true, if_true, if_false] at hok
        simp only [Except.ok.injEq] at hok
        subst hok
        exact ⟨rfl, rfl, rfl⟩
      · simp only [plot_ratio, if_neg h1, if_neg h2, if_neg h3] at hok
        exact Except.noConfusion hok

/-- Witness for C6's amended theorem at a concrete normal return. -/
theorem plot_ratio_offscale_flags_witness :
    ∃ out, (plot_ratio "warn" [0, 1] [1] [0] [1] [0] none "raw" false).1 =
        Except.ok out ∧
      (out.out_of_range_up = out.ratio0.map
        (fun x => if fgtR x out.max_ratio then Fp.fin out.max_ratio else Fp.nan) ∧
       out.out_of_range_down = out.ratio0.map
        (fun x => if fltR x out.min_ratio then Fp.fin out.min_ratio else Fp.nan) ∧
       out.ratio = (if false then out.ratio0 else out.ratio0.map
        (fun x => if fgtR x out.max_ratio || fltR x out.min_ratio
          then Fp.nan else x))) :=
  ⟨_, rfl, plot_ratio_offscale_flags "warn" [0, 1] [1] [0] [1] [0] none
    "raw" false _ rfl⟩

/-- Claim C3: the `significance` function computes, independently per bin, the
claimed formula `sign * sqrt(2*(n*ln(n*(b+s2)/(b²+n*s2)) -
(b²/s2)*ln(1+s2*(n-b)/(b*(b+s2)))))` with `s2 = data_err² + bkg_err²` and
`sign = +1` iff `n ≥ b`; a negative radicand yields NaN rather than
raising, and a bin with a division like `b²/s2` against zero background
(the `0/0`-style degenerate case `n=1, b=0` with unit data error)
evaluates to NaN rather than raising. -/
theorem significance_matches_spec :
    (∀ data data_errs bkg bkg_errs : List ℝ,
       significance data data_errs bkg bkg_errs =
         zipWith4 (fun n dn b be => sigSpecBin n b (dn ^ 2 + be ^ 2))
           data data_errs bkg bkg_errs) ∧
    (∀ r : ℝ, r < 0 → fsqrt (Fp.fin r) = Fp.nan) ∧
    significance [1] [1] [0] [0] = [Fp.nan] := by
  refine ⟨fun data de bkg be => rfl, fun r hr => by simp [fsqrt, hr, not_le.mpr hr], ?_⟩
  have h01 : (0 : ℝ) < 1 := by norm_num
  simp [significance, zipWith4, sigBin, fmul, fdiv, fadd, fsub, fneg, flog, fsqrt,
    Real.log_one, h01]
  norm_num

/-- Witness for C3 at concrete inputs: the spec-formula agreement on a
one-bin input, and NaN on the negative radicand `-1`. -/
theorem significance_matches_spec_witness :
    significance [1] [1] [0] [0] =
      zipWith4 (fun n dn b be => sigSpecBin n b (dn ^ 2 + be ^ 2)) [1] [1] [0] [0] ∧
    fsqrt (Fp.fin (-1)) = Fp.nan :=
  ⟨significance_matches_spec.1 [1] [1] [0] [0],
   significance_matches_spec.2.1 (-1) (by norm_num)⟩

end AMPL
